import Mathlib

set_option maxHeartbeats 1000000

/-!
Shallow embedding of the FlexUpdateMc chunk-generation orchestrator
(crates `flex-mc` and `ssmc-core`), together with theorems checking the
natural-language specification against the code.

Rust machine integers (`isize`, `i64`, `usize`) are embedded as `Int`/`Nat`;
Rust `/` and `%` on signed integers are `Int.tdiv`/`Int.tmod` (truncation
toward zero), `div_euclid`/`rem_euclid` are `Int.ediv`/`Int.emod`.
Rust panics are embedded as `none` / a dedicated outcome constructor.
-/

namespace RegionLoader

/-- Embeds `RegionPos` from `flex-mc/src/infra/region_loader.rs`. -/
structure RegionPos where
  x : Int
  z : Int
deriving DecidableEq, Repr

/-- Embeds `ChunkPos` from `flex-mc/src/infra/region_loader.rs`. -/
structure ChunkPos where
  x : Int
  z : Int
deriving DecidableEq, Repr

/-- Embeds `ChunkPos::region`: `RegionPos::new(self.x / 32, self.z / 32)`.
Rust `/` on `isize` truncates toward zero, which is `Int.tdiv`. -/
def ChunkPos.region (p : ChunkPos) : RegionPos :=
  RegionPos.mk (Int.tdiv p.x 32) (Int.tdiv p.z 32)

/-- Embeds `ChunkPos::region_offset`:
`(self.x.rem_euclid(32) as usize, self.x.rem_euclid(32) as usize)`.
Note the source uses `self.x` in BOTH components. `rem_euclid` is `Int.emod`
(non-negative remainder), and the `as usize` cast is `Int.toNat`. -/
def ChunkPos.region_offset (p : ChunkPos) : Nat × Nat :=
  ((Int.emod p.x 32).toNat, (Int.emod p.x 32).toNat)

/-- Embeds `RegionPos::to_file_name`: `format!("r.{}.{}.mca", self.x, self.z)`. -/
def RegionPos.to_file_name (p : RegionPos) : String :=
  "r." ++ toString p.x ++ "." ++ toString p.z ++ ".mca"

/-- Result of `RegionPos::try_parse_file_name`, which returns
`Result<ChunkPos, String>` in the source but can also panic via `.expect`. -/
inductive ParseOutcome where
  | ok (pos : ChunkPos)
  | err (msg : String)
  | panicked (msg : String)
deriving DecidableEq, Repr

/-- Splitting a character list at every occurrence of a separator, keeping
empty groups — the behaviour of Rust `str::split(char)`. -/
def splitOnChar (c : Char) : List Char → List (List Char)
  | [] => [[]]
  | a :: rest =>
    if a = c then [] :: splitOnChar c rest
    else
      match splitOnChar c rest with
      | [] => [[a]]
      | g :: gs => (a :: g) :: gs

/-- Digit-list parsing, the core of Rust `str::parse::<isize>` after sign
handling: all characters must be decimal digits and at least one digit must
be present. -/
def parseDigits : List Char → Option Nat
  | [] => none
  | cs => go cs 0
where
  go : List Char → Nat → Option Nat
    | [], acc => some acc
    | c :: rest, acc =>
      if c.isDigit then go rest (acc * 10 + (c.toNat - 48))
      else none

/-- Embeds Rust `str::parse::<isize>`: an optional `+`/`-` sign followed by
one or more decimal digits (overflow is ignored; the inputs of interest are
small). -/
def parseIsize (cs : List Char) : Option Int :=
  match cs with
  | '-' :: rest => (parseDigits rest).map (fun n => -(n : Int))
  | '+' :: rest => (parseDigits rest).map (fun n => (n : Int))
  | _ => (parseDigits cs).map (fun n => (n : Int))

/-- Embeds `RegionPos::try_parse_file_name`. The source splits the whole name
on a dot, requires exactly three parts `["r", coords, "mca"]`, then splits the
middle part on an underscore and parses the two pieces with
`.parse::<isize>().expect(...)` (a panic on parse failure). -/
def RegionPos.try_parse_file_name (file_name : String) : ParseOutcome :=
  match splitOnChar '.' file_name.data with
  | [p0, p1, p2] =>
    if p0 = "r".data ∧ p2 = "mca".data then
      match splitOnChar '_' p1 with
      | [c0, c1] =>
        match parseIsize c0 with
        | none => ParseOutcome.panicked "Invalid x coordinate"
        | some x =>
          match parseIsize c1 with
          | none => ParseOutcome.panicked "Invalid z coordinate"
          | some z => ParseOutcome.ok (ChunkPos.mk x z)
      | _ => ParseOutcome.err "Invalid region coordinates format"
    else ParseOutcome.err "Invalid region file name format"
  | _ => ParseOutcome.err "Invalid region file name format"

/-- Bit length of a natural number, by fuel-bounded structural recursion so
the kernel can evaluate it (64 bits of fuel covers every `usize` value). -/
def bitLenAux : Nat → Nat → Nat
  | 0, _ => 0
  | fuel + 1, n => if n = 0 then 0 else bitLenAux fuel (n / 2) + 1

/-- Embeds `usize::leading_zeros` on a 64-bit platform: the count of leading
zero bits is 64 minus the bit length. -/
def leading_zeros_64 (n : Nat) : Nat := 64 - bitLenAux 64 n

/-- Embeds `Blockstates::calculate_bits_per_block` as a function of the
palette length: `if palette.is_empty() { 0 } else
{ (usize::BITS - (len.saturating_sub(1)).leading_zeros()).min(4) }`.
Nat subtraction is saturating, matching `saturating_sub`. -/
def calculate_bits_per_block (paletteLen : Nat) : Nat :=
  if paletteLen = 0 then 0
  else min (64 - leading_zeros_64 (paletteLen - 1)) 4

/-- Embeds `Blockstates::get_block`, generically over the palette entry type
(the source never inspects the `Block` payload here). `data` holds the i64
values of the packed long array. Panics (coordinate bounds, division by zero
when `bits_per_block = 0`, out-of-range indexing) are embedded as `none`.
The i64 arithmetic shift right is floor division by a power of two, and the
mask `& ((1 << bits) - 1)` on an i64 is `Int.emod` by `2 ^ bits`. -/
def get_block {B : Type} (palette : List B) (data : Option (List Int))
    (x y z : Nat) : Option B :=
  if 16 ≤ x ∨ 16 ≤ y ∨ 16 ≤ z then none
  else
    match data with
    | some d =>
      let block_index := (y * 16 + z) * 16 + x
      let bits_per_block := calculate_bits_per_block palette.length
      if bits_per_block = 0 then none
      else
        let block_per_long := 64 / bits_per_block
        let data_index := block_index / block_per_long
        let block_offset := block_index % block_per_long
        match d.get? data_index with
        | none => none
        | some w =>
          let pallet_index :=
            (Int.fdiv w (2 ^ (block_offset * bits_per_block))).emod
              (2 ^ bits_per_block)
          palette.get? pallet_index.toNat
    | none => palette.get? 0

/-- Claim C3: the spec says `ChunkPos::region` is floored division by 32, so
that ChunkPos(-1,-1) maps to RegionPos(-1,-1) and ChunkPos(-33,-33) to
RegionPos(-2,-2). The code uses Rust `/`, which truncates toward zero:
ChunkPos(-1,-1) maps to RegionPos(0,0) and ChunkPos(-33,-33) to
RegionPos(-1,-1), contradicting the claim at both sample points. -/
theorem region_truncates_toward_zero :
    ChunkPos.region (ChunkPos.mk (-1) (-1)) = RegionPos.mk 0 0 ∧
    ChunkPos.region (ChunkPos.mk (-33) (-33)) = RegionPos.mk (-1) (-1) ∧
    ChunkPos.region (ChunkPos.mk (-1) (-1)) ≠ RegionPos.mk (-1) (-1) ∧
    ChunkPos.region (ChunkPos.mk (-33) (-33)) ≠ RegionPos.mk (-2) (-2) := by
  decide

/-- Claim C4: the spec says `ChunkPos::region_offset` returns
`(x mod 32, z mod 32)`, the second component depending on z only. The code
computes both components from `self.x`: at ChunkPos(0,5) it returns (0,0),
not the claimed (0,5). -/
theorem region_offset_ignores_z :
    ChunkPos.region_offset (ChunkPos.mk 0 5) = (0, 0) ∧
    ChunkPos.region_offset (ChunkPos.mk 0 5) ≠ (0, 5) := by
  decide

/-- Claim C5: the spec says the bit width is `max(4, ceil_log2(p))` and that
unpacking a zero-filled long array yields the palette's first entry. The code
computes `min(ceil_log2(p), 4)`: for a palette of size 2 it yields 1, not 4;
and for a palette of size 1 it yields width 0, so `get_block` divides by zero
(a panic, embedded as `none`) instead of returning the first entry. -/
theorem bits_per_block_min_bug :
    calculate_bits_per_block 2 = 1 ∧
    calculate_bits_per_block 2 ≠ 4 ∧
    calculate_bits_per_block 1 = 0 ∧
    get_block ["stone"] (some (List.replicate 64 0)) 0 0 0 = none := by
  decide

/-- Claim C8: the spec says region file names round-trip through
`try_parse_file_name` and that non-matching names are rejected with an error
value. The code formats names as `r.<x>.<z>.mca` but parses the format
`r.<x>_<z>.mca`, so the name produced for RegionPos(0,0) is rejected; and the
name `r.a_b.mca` panics via `.expect` instead of returning an error. -/
theorem file_name_roundtrip_fails :
    RegionPos.to_file_name (RegionPos.mk 0 0) = "r.0.0.mca" ∧
    RegionPos.try_parse_file_name "r.0.0.mca" =
      ParseOutcome.err "Invalid region file name format" ∧
    RegionPos.try_parse_file_name "r.a_b.mca" =
      ParseOutcome.panicked "Invalid x coordinate" ∧
    RegionPos.try_parse_file_name "r.0_0.mca" =
      ParseOutcome.ok (ChunkPos.mk 0 0) := by
  decide

end RegionLoader

namespace FileTrie

/-- Embeds `File` from `ssmc-core/src/util/file_trie.rs`: a leaf is inline
bytes, a URL, or a local path (URLs and paths embedded as strings). -/
inductive FsFile where
  | inline (data : List Nat)
  | url (u : String)
  | path (p : String)
deriving DecidableEq, Repr

/-- Embeds `Entry`: a file or a nested directory. `Dir(HashMap<String, Entry>)`
is embedded as an association list from segment names to entries; the claims
settled here do not depend on iteration order or key uniqueness. -/
inductive Entry where
  | file (f : FsFile)
  | dir (d : List (String × Entry))
deriving Repr

/-- A directory, i.e. the contents of the `Dir` newtype. -/
abbrev Dir := List (String × Entry)

/-- Embeds `Error` from `file_trie.rs`. -/
inductive TrieError where
  | pathConflict
deriving DecidableEq, Repr

/-- Embeds `HashMap::get` on the association-list directory. -/
def findEntry (d : Dir) (k : String) : Option Entry :=
  match d with
  | [] => none
  | (k2, e) :: rest => if k2 = k then some e else findEntry rest k

/-- Embeds `HashMap::insert`: replaces the entry at an existing key, appends
otherwise. -/
def insertEntry (d : Dir) (k : String) (e : Entry) : Dir :=
  match d with
  | [] => [(k, e)]
  | (k2, e2) :: rest =>
    if k2 = k then (k, e) :: rest else (k2, e2) :: insertEntry rest k e

/-- Embeds `HashMap::remove` (only whether a key was present matters). -/
def removeEntry (d : Dir) (k : String) : Dir :=
  match d with
  | [] => []
  | (k2, e2) :: rest =>
    if k2 = k then rest else (k2, e2) :: removeEntry rest k

/-- Embeds `Dir::get`: an empty path returns `None` (root access is not
supported this way); a single component looks the entry up; a longer path
recurses through directories and returns `None` when it meets a file. -/
def dirGet (d : Dir) : List String → Option Entry
  | [] => none
  | first :: rest =>
    match findEntry d first with
    | none => none
    | some e =>
      match rest with
      | [] => some e
      | _ :: _ =>
        match e with
        | Entry.dir sub => dirGet sub rest
        | Entry.file _ => none

/-- Embeds `Dir::put` with explicit state passing: the returned directory is
the post-call state of the mutable receiver (intermediate directories created
before a deeper conflict persist, as with `&mut self` in the source). An
empty path fails with `PathConflict` before any mutation. -/
def dirPut (d : Dir) (path : List String) (e : Entry) :
    Except TrieError Unit × Dir :=
  match path with
  | [] => (Except.error TrieError.pathConflict, d)
  | [key] => (Except.ok (), insertEntry d key e)
  | first :: rest =>
    match findEntry d first with
    | some (Entry.dir sub) =>
      let (r, sub2) := dirPut sub rest e
      (r, insertEntry d first (Entry.dir sub2))
    | some (Entry.file _) => (Except.error TrieError.pathConflict, d)
    | none =>
      let (r, sub2) := dirPut [] rest e
      (r, insertEntry d first (Entry.dir sub2))

/-- Embeds `Dir::delete` with explicit state passing: returns whether an
entry was removed together with the post-call directory. An empty path
returns `false` without mutating. -/
def dirDelete (d : Dir) (path : List String) : Bool × Dir :=
  match path with
  | [] => (false, d)
  | [key] => ((findEntry d key).isSome, removeEntry d key)
  | first :: rest =>
    match findEntry d first with
    | some (Entry.dir sub) =>
      let (b, sub2) := dirDelete sub rest
      (b, insertEntry d first (Entry.dir sub2))
    | _ => (false, d)

/-- Claim C10: operations addressed with the empty path have fixed,
non-panicking results on every tree: `get` returns `None`, `put` fails with
`PathConflict` leaving the tree unchanged, and `delete` returns `false`
leaving the tree unchanged. -/
theorem empty_path_ops (d : Dir) (e : Entry) :
    dirGet d [] = none ∧
    dirPut d [] e = (Except.error TrieError.pathConflict, d) ∧
    dirDelete d [] = (false, d) := by
  exact ⟨rfl, rfl, rfl⟩

end FileTrie

namespace ChunkGen

open RegionLoader

/-- A parsed `server.properties` map, embedded as an association list (the
source uses `HashMap<String, String>`; the claims settled here are about
per-key lookups, which do not depend on iteration order). -/
abbrev Props := List (String × String)

/-- Embeds `HashMap::insert` on the properties map. -/
def propsInsert (p : Props) (k v : String) : Props :=
  match p with
  | [] => [(k, v)]
  | (k2, v2) :: rest =>
    if k2 = k then (k, v) :: rest else (k2, v2) :: propsInsert rest k v

/-- Embeds `HashMap::get` on the properties map. -/
def propsLookup (p : Props) (k : String) : Option String :=
  match p with
  | [] => none
  | (k2, v2) :: rest => if k2 = k then some v2 else propsLookup rest k

/-- Embeds the property overlay in `DefaultChunkGenerator::generate_chunks`
(chunk_generator.rs lines 213–217): exactly five inserts, in source order —
`online-mode=false`, `max-players=<max_bot_count>`, `server-port=<port>`,
`gamemode=creative`, `allow-flight=true`. No `view-distance` key is written. -/
def overlayProps (props : Props) (maxBotCount : Nat) (port : Nat) : Props :=
  propsInsert
    (propsInsert
      (propsInsert
        (propsInsert
          (propsInsert props "online-mode" "false")
          "max-players" (toString maxBotCount))
        "server-port" (toString port))
      "gamemode" "creative")
    "allow-flight" "true"

/-- Lookup of a key other than the inserted one is unchanged by an insert. -/
theorem propsLookup_insert_ne (p : Props) (k k2 v : String) (h : k ≠ k2) :
    propsLookup (propsInsert p k2 v) k = propsLookup p k := by
  induction p with
  | nil =>
    simp only [propsInsert, propsLookup]
    rw [if_neg (fun hh => h hh.symm)]
  | cons hd tl ih =>
    obtain ⟨ka, va⟩ := hd
    by_cases hk : ka = k2
    · subst hk
      simp only [propsInsert, if_pos rfl, propsLookup]
      rw [if_neg (fun hh => h hh.symm), if_neg (fun hh => h hh.symm)]
    · simp only [propsInsert, if_neg hk, propsLookup]
      by_cases hk2 : ka = k
      · rw [if_pos hk2, if_pos hk2]
      · rw [if_neg hk2, if_neg hk2, ih]

/-- Lookup of the inserted key returns the inserted value. -/
theorem propsLookup_insert_self (p : Props) (k v : String) :
    propsLookup (propsInsert p k v) k = some v := by
  induction p with
  | nil => simp [propsInsert, propsLookup]
  | cons hd tl ih =>
    obtain ⟨ka, va⟩ := hd
    by_cases hk : ka = k
    · simp [propsInsert, hk, propsLookup]
    · simp [propsInsert, hk, propsLookup, ih]

/-- Embeds `QuadChunkPos` from `flex-mc/src/infra/chunk_generator.rs`. -/
structure QuadChunkPos where
  x : Int
  z : Int
deriving DecidableEq, Repr

/-- Embeds `QuadChunkPos::from_chunk`:
`(chunk_pos.x.div_euclid(2), chunk_pos.z.div_euclid(2))`; Rust `div_euclid`
is `Int.ediv`. -/
def QuadChunkPos.from_chunk (c : ChunkPos) : QuadChunkPos :=
  QuadChunkPos.mk (Int.ediv c.x 2) (Int.ediv c.z 2)

/-- Embeds `QuadChunkPos::region_pos`:
`RegionPos::new(self.x.div_euclid(16), self.z.div_euclid(16))`. -/
def QuadChunkPos.region_pos (q : QuadChunkPos) : RegionPos :=
  RegionPos.mk (Int.ediv q.x 16) (Int.ediv q.z 16)

/-- Embeds `QuadChunkPos::center_block_pos`:
`(self.x * 32 + 16, self.z * 32 + 16)`. -/
def QuadChunkPos.center_block_pos (q : QuadChunkPos) : Int × Int :=
  (q.x * 32 + 16, q.z * 32 + 16)

/-- Rust `Ord::cmp` on `isize`. -/
def intCmp (a b : Int) : Ordering :=
  if a < b then Ordering.lt else if a = b then Ordering.eq else Ordering.gt

/-- Lexicographic comparison of integer pairs, the derived tuple order used
by `(self.x, self.z).cmp(&(other.x, other.z))`. The source calls `.cmp` on
`RegionPos`, which has no `Ord` impl in the repository; the lexicographic
`(x, z)` order is assumed for it here (the theorems below do not depend on
the order chosen). -/
def intPairCmp (a b : Int × Int) : Ordering :=
  match intCmp a.1 b.1 with
  | Ordering.eq => intCmp a.2 b.2
  | o => o

/-- Embeds `QuadChunkPos::cmp_private`: compare by containing region first,
then by `(x, z)`. -/
def QuadChunkPos.cmp_private (a b : QuadChunkPos) : Ordering :=
  match intPairCmp (a.region_pos.x, a.region_pos.z)
      (b.region_pos.x, b.region_pos.z) with
  | Ordering.gt => Ordering.gt
  | Ordering.lt => Ordering.lt
  | Ordering.eq => intPairCmp (a.x, a.z) (b.x, b.z)

/-- Ordered insertion into a sorted duplicate-free list: the effect of
`BTreeSet::insert` under the `Ord` given by `cmp_private`. -/
def btreeInsert : List QuadChunkPos → QuadChunkPos → List QuadChunkPos
  | [], q => [q]
  | x :: xs, q =>
    match QuadChunkPos.cmp_private q x with
    | Ordering.lt => q :: x :: xs
    | Ordering.eq => x :: xs
    | Ordering.gt => x :: btreeInsert xs q

/-- Embeds `BTreeSet::from_iter(chunk_list.iter().map(QuadChunkPos::from_chunk))`
(chunk_generator.rs line 180), as the sorted duplicate-free list of quad
chunk positions. -/
def quadSet (chunkList : List ChunkPos) : List QuadChunkPos :=
  chunkList.foldl (fun s c => btreeInsert s (QuadChunkPos.from_chunk c)) []

/-- Fuel-bounded splitting of a list into consecutive groups of `n`
(structural recursion so the kernel can evaluate); fuel at least the list
length never runs out. -/
def toBatchesFuel (n : Nat) : Nat → List QuadChunkPos →
    List (List QuadChunkPos)
  | _, [] => []
  | 0, l => [l]
  | fuel + 1, x :: xs =>
    (x :: xs.take (n - 1)) :: toBatchesFuel n fuel (xs.drop (n - 1))

/-- Embeds `quad_chunks.iter().chunks(max_bot_count)` (itertools `chunks`):
consecutive groups of at most `max_bot_count` elements. -/
def toBatches (n : Nat) (l : List QuadChunkPos) : List (List QuadChunkPos) :=
  toBatchesFuel n l.length l

/-- Embeds the `{:02}` format specifier for the small bot indices used here. -/
def pad2 (n : Nat) : String := if n < 10 then "0" ++ toString n else toString n

/-- Embeds the teleport command written for batch element `idx`
(chunk_generator.rs line 283):
`format!("tp bot{:02} {} 100 {}\n", idx, x, z)` with
`(x, z) = chunk.center_block_pos()`. -/
def tpLine (idx : Nat) (q : QuadChunkPos) : String :=
  "tp bot" ++ pad2 idx ++ " " ++ toString q.center_block_pos.1 ++ " 100 " ++
    toString q.center_block_pos.2 ++ "\n"

/-- Embeds `for (idx, chunk) in chunks.iter().enumerate()` over one batch,
starting at index `s` (the source starts at 0). -/
def tpBatchLines (s : Nat) : List QuadChunkPos → List String
  | [] => []
  | q :: qs => tpLine s q :: tpBatchLines (s + 1) qs

/-- The sequence of teleport commands `generate_chunks` writes to server
stdin across all batches, as a function of the input chunk list and the bot
count. -/
def tpLines (chunkList : List ChunkPos) (botCount : Nat) : List String :=
  ((toBatches botCount (quadSet chunkList)).map (tpBatchLines 0)).flatten

/-- One step of the teardown tail of `generate_chunks`. -/
inductive ShutdownAction where
  | writeLine (line : String)
  | sleepSecs (s : Nat)
  | stopBot (idx : Nat)
  | killChild
  | waitChild
deriving DecidableEq, Repr

/-- Embeds the teardown tail of `generate_chunks` (chunk_generator.rs lines
337–350): write `save-all\n`, sleep 30 s, stop every bot handle, then
`child.kill()` followed by `child.wait()` on the server child. -/
def teardownActions (botCount : Nat) : List ShutdownAction :=
  [ShutdownAction.writeLine "save-all\n", ShutdownAction.sleepSecs 30] ++
    (List.range botCount).map ShutdownAction.stopBot ++
    [ShutdownAction.killChild, ShutdownAction.waitChild]

/-- Claim C6 (counterexample): the claim includes `view-distance` in the
overlay set, but the code writes no such key — overlaying an empty properties
map leaves `view-distance` absent (the generator does not even take a
view-distance parameter). -/
theorem view_distance_not_overlaid :
    propsLookup (overlayProps [] 4 25565) "view-distance" = none := by
  decide

/-- Claim C6 (amended): the overlay writes exactly the five keys
`online-mode=false`, `max-players=<bot count>`, `server-port=<port>`,
`gamemode=creative`, `allow-flight=true` — there is no `view-distance`
overlay — and every other key keeps its original value. -/
theorem overlay_props_exact (props : Props) (n port : Nat) (k : String)
    (h : k ≠ "online-mode" ∧ k ≠ "max-players" ∧ k ≠ "server-port" ∧
      k ≠ "gamemode" ∧ k ≠ "allow-flight") :
    propsLookup (overlayProps props n port) k = propsLookup props k ∧
    propsLookup (overlayProps props n port) "online-mode" = some "false" ∧
    propsLookup (overlayProps props n port) "max-players" =
      some (toString n) ∧
    propsLookup (overlayProps props n port) "server-port" =
      some (toString port) ∧
    propsLookup (overlayProps props n port) "gamemode" = some "creative" ∧
    propsLookup (overlayProps props n port) "allow-flight" = some "true" := by
  obtain ⟨h1, h2, h3, h4, h5⟩ := h
  unfold overlayProps
  refine ⟨?_, ?_, ?_, ?_, ?_, ?_⟩
  · rw [propsLookup_insert_ne _ _ _ _ h5, propsLookup_insert_ne _ _ _ _ h4,
      propsLookup_insert_ne _ _ _ _ h3, propsLookup_insert_ne _ _ _ _ h2,
      propsLookup_insert_ne _ _ _ _ h1]
  · rw [propsLookup_insert_ne _ _ _ _ (by decide),
      propsLookup_insert_ne _ _ _ _ (by decide),
      propsLookup_insert_ne _ _ _ _ (by decide),
      propsLookup_insert_ne _ _ _ _ (by decide),
      propsLookup_insert_self]
  · rw [propsLookup_insert_ne _ _ _ _ (by decide),
      propsLookup_insert_ne _ _ _ _ (by decide),
      propsLookup_insert_ne _ _ _ _ (by decide),
      propsLookup_insert_self]
  · rw [propsLookup_insert_ne _ _ _ _ (by decide),
      propsLookup_insert_ne _ _ _ _ (by decide),
      propsLookup_insert_self]
  · rw [propsLookup_insert_ne _ _ _ _ (by decide),
      propsLookup_insert_self]
  · rw [propsLookup_insert_self]

/-- Claim C6 (witness): the amended overlay theorem instantiated with a
concrete map holding a `motd` key, four bots and port 25565. -/
theorem overlay_props_exact_witness :
    propsLookup (overlayProps [("motd", "hi")] 4 25565) "motd" =
      some "hi" ∧
    propsLookup (overlayProps [("motd", "hi")] 4 25565) "online-mode" =
      some "false" := by
  have h := overlay_props_exact [("motd", "hi")] 4 25565 "motd"
    ⟨by decide, by decide, by decide, by decide, by decide⟩
  exact ⟨h.1, h.2.1⟩

/-- Comparing equal under `intCmp` means the integers are equal. -/
theorem intCmp_eq {a b : Int} (h : intCmp a b = Ordering.eq) : a = b := by
  unfold intCmp at h
  by_cases h1 : a < b
  · rw [if_pos h1] at h
    exact Ordering.noConfusion h
  · rw [if_neg h1] at h
    by_cases h2 : a = b
    · exact h2
    · rw [if_neg h2] at h
      exact Ordering.noConfusion h

/-- Comparing equal under `intPairCmp` means the pairs are equal. -/
theorem intPairCmp_eq {a b : Int × Int} (h : intPairCmp a b = Ordering.eq) :
    a = b := by
  obtain ⟨a1, a2⟩ := a
  obtain ⟨b1, b2⟩ := b
  unfold intPairCmp at h
  split at h
  · next hc =>
    simp only at hc h
    rw [Prod.mk.injEq]
    exact ⟨intCmp_eq hc, intCmp_eq h⟩
  · next o hne =>
    exact absurd h hne

/-- Comparing equal under `cmp_private` means the quad positions are equal. -/
theorem cmp_private_eq {a b : QuadChunkPos}
    (h : QuadChunkPos.cmp_private a b = Ordering.eq) : a = b := by
  unfold QuadChunkPos.cmp_private at h
  split at h
  · exact Ordering.noConfusion h
  · exact Ordering.noConfusion h
  · have h2 := intPairCmp_eq h
    obtain ⟨ax, az⟩ := a
    obtain ⟨bx, bz⟩ := b
    simp only [Prod.mk.injEq] at h2
    obtain ⟨h3, h4⟩ := h2
    rw [h3, h4]

/-- The inserted element is a member of the insertion's result. -/
theorem mem_btreeInsert_self : ∀ (l : List QuadChunkPos) (q : QuadChunkPos),
    q ∈ btreeInsert l q
  | [], q => by simp [btreeInsert]
  | x :: xs, q => by
    unfold btreeInsert
    split
    · exact List.mem_cons_self _ _
    · next hc =>
      rw [cmp_private_eq hc]
      exact List.mem_cons_self _ _
    · exact List.mem_cons_of_mem _ (mem_btreeInsert_self xs q)

/-- Insertion preserves the existing members. -/
theorem mem_btreeInsert_of_mem :
    ∀ (l : List QuadChunkPos) (q y : QuadChunkPos),
      y ∈ l → y ∈ btreeInsert l q
  | [], _, y, h => absurd h (List.not_mem_nil y)
  | x :: xs, q, y, h => by
    unfold btreeInsert
    split
    · exact List.mem_cons_of_mem _ h
    · exact h
    · rcases List.mem_cons.mp h with h1 | h2
      · rw [h1]
        exact List.mem_cons_self _ _
      · exact List.mem_cons_of_mem _ (mem_btreeInsert_of_mem xs q y h2)

/-- A member of the accumulator stays a member through the set-building fold. -/
theorem mem_foldl_insert_acc :
    ∀ (l : List ChunkPos) (s : List QuadChunkPos) (q : QuadChunkPos),
      q ∈ s →
      q ∈ l.foldl (fun s c => btreeInsert s (QuadChunkPos.from_chunk c)) s
  | [], _, _, h => h
  | c :: cs, s, q, h => by
    simp only [List.foldl_cons]
    exact mem_foldl_insert_acc cs _ q
      (mem_btreeInsert_of_mem s (QuadChunkPos.from_chunk c) q h)

/-- Every listed chunk's quad position ends up in the built set. -/
theorem mem_quadSet_aux :
    ∀ (l : List ChunkPos) (s : List QuadChunkPos) (c : ChunkPos),
      c ∈ l →
      QuadChunkPos.from_chunk c ∈
        l.foldl (fun s c => btreeInsert s (QuadChunkPos.from_chunk c)) s
  | [], _, c, h => absurd h (List.not_mem_nil c)
  | a :: l2, s, c, h => by
    simp only [List.foldl_cons]
    rcases List.mem_cons.mp h with h1 | h2
    · subst h1
      exact mem_foldl_insert_acc l2 _ _ (mem_btreeInsert_self s _)
    · exact mem_quadSet_aux l2 _ c h2

/-- Every listed chunk's quad position is in `quadSet`. -/
theorem mem_quadSet (l : List ChunkPos) (c : ChunkPos) (h : c ∈ l) :
    QuadChunkPos.from_chunk c ∈ quadSet l :=
  mem_quadSet_aux l [] c h

/-- Every member of the batched list sits in some batch of size at most `n`,
provided the fuel covers the list length. -/
theorem toBatchesFuel_cover (n : Nat) (hn : 1 ≤ n) :
    ∀ (fuel : Nat) (l : List QuadChunkPos) (q : QuadChunkPos),
      l.length ≤ fuel → q ∈ l →
      ∃ b, b ∈ toBatchesFuel n fuel l ∧ q ∈ b ∧ b.length ≤ n
  | 0, l, q, hl, hq => by
    have : l = [] := List.eq_nil_of_length_eq_zero (Nat.le_zero.mp hl)
    subst this
    exact absurd hq (List.not_mem_nil q)
  | fuel + 1, [], q, _, hq => absurd hq (List.not_mem_nil q)
  | fuel + 1, x :: xs, q, hl, hq => by
    simp only [toBatchesFuel]
    have hbatchlen : (x :: xs.take (n - 1)).length ≤ n := by
      have hmin : min (n - 1) xs.length ≤ n - 1 := min_le_left _ _
      simp only [List.length_cons, List.length_take]
      omega
    rcases List.mem_cons.mp hq with h1 | h2
    · subst h1
      exact ⟨q :: xs.take (n - 1), List.mem_cons_self _ _,
        List.mem_cons_self _ _, hbatchlen⟩
    · have h2b : q ∈ xs.take (n - 1) ++ xs.drop (n - 1) := by
        rw [List.take_append_drop]
        exact h2
      rcases List.mem_append.mp h2b with ht | hd
      · exact ⟨x :: xs.take (n - 1), List.mem_cons_self _ _,
          List.mem_cons_of_mem _ ht, hbatchlen⟩
      · have hlen : (xs.drop (n - 1)).length ≤ fuel := by
          simp only [List.length_cons] at hl
          simp only [List.length_drop]
          omega
        obtain ⟨b, hb1, hb2, hb3⟩ :=
          toBatchesFuel_cover n hn fuel (xs.drop (n - 1)) q hlen hd
        exact ⟨b, List.mem_cons_of_mem _ hb1, hb2, hb3⟩

/-- A member of a batch yields a teleport line at its enumeration index. -/
theorem tpBatchLines_mem :
    ∀ (b : List QuadChunkPos) (s : Nat) (q : QuadChunkPos),
      q ∈ b → ∃ i, i < b.length ∧ tpLine (s + i) q ∈ tpBatchLines s b
  | [], _, q, h => absurd h (List.not_mem_nil q)
  | x :: bs, s, q, h => by
    rcases List.mem_cons.mp h with h1 | h2
    · subst h1
      refine ⟨0, by simp, ?_⟩
      rw [Nat.add_zero]
      exact List.mem_cons_self _ _
    · obtain ⟨i, hi, hmem⟩ := tpBatchLines_mem bs (s + 1) q h2
      refine ⟨i + 1, by simp only [List.length_cons]; omega, ?_⟩
      have he : s + (i + 1) = s + 1 + i := by omega
      rw [he]
      exact List.mem_cons_of_mem _ hmem

/-- Claim C1 (amended): for every chunk position (x, z) in the requested
list, the orchestrator writes a teleport command for some bot index below the
bot count, targeting the centre of the CONTAINING QUAD CHUNK — block
coordinates ((x div 2)*32+16, 100, (z div 2)*32+16) with floored division —
not the chunk's own centre (x*16+8, 100, z*16+8). -/
theorem tp_commands_target_quad_centers (chunkList : List ChunkPos)
    (botCount : Nat) (c : ChunkPos) (hb : 1 ≤ botCount)
    (hc : c ∈ chunkList) :
    ∃ idx, idx < botCount ∧
      tpLine idx (QuadChunkPos.from_chunk c) ∈ tpLines chunkList botCount
    := by
  have hq := mem_quadSet chunkList c hc
  obtain ⟨b, hb1, hb2, hb3⟩ := toBatchesFuel_cover botCount hb
    (quadSet chunkList).length (quadSet chunkList) _ (le_refl _) hq
  obtain ⟨i, hi, hmem⟩ := tpBatchLines_mem b 0 _ hb2
  refine ⟨i, by omega, ?_⟩
  rw [Nat.zero_add] at hmem
  unfold tpLines toBatches
  rw [List.mem_flatten]
  exact ⟨tpBatchLines 0 b, List.mem_map_of_mem _ hb1, hmem⟩

/-- Claim C1 (witness): the amended theorem instantiated with the single
chunk (0,0) and one bot. -/
theorem tp_commands_target_quad_centers_witness :
    ∃ idx, idx < 1 ∧
      tpLine idx (QuadChunkPos.from_chunk (ChunkPos.mk 0 0)) ∈
        tpLines [ChunkPos.mk 0 0] 1 :=
  tp_commands_target_quad_centers [ChunkPos.mk 0 0] 1 (ChunkPos.mk 0 0)
    (by decide) (List.mem_singleton.mpr rfl)

/-- Claim C1 (counterexample): generating the single chunk (0,0) with one bot
writes `tp bot00 16 100 16\n` — the quad-chunk centre — and the claimed line
`tp bot00 8 100 8\n` never reaches server stdin. -/
theorem tp_single_chunk_counterexample :
    tpLines [ChunkPos.mk 0 0] 1 = ["tp bot00 16 100 16\n"] ∧
    "tp bot00 8 100 8\n" ∉ tpLines [ChunkPos.mk 0 0] 1 := by
  constructor
  · decide
  · decide

/-- Claim C2 (counterexample): with one bot, the teardown writes no `stop\n`
line to server stdin and instead kills the server child process. -/
theorem no_stop_line_counterexample :
    ShutdownAction.writeLine "stop\n" ∉ teardownActions 1 ∧
    ShutdownAction.killChild ∈ teardownActions 1 := by
  decide

/-- Claim C2 (amended): when generation completes, the orchestrator writes
`save-all\n` (not `stop\n`) to server stdin, then terminates the server by
killing the child process and reaping it with `wait`; no console `stop`
command is ever written. -/
theorem teardown_saveall_then_kill (botCount : Nat) :
    ShutdownAction.writeLine "save-all\n" ∈ teardownActions botCount ∧
    ShutdownAction.writeLine "stop\n" ∉ teardownActions botCount ∧
    ShutdownAction.killChild ∈ teardownActions botCount ∧
    ShutdownAction.waitChild ∈ teardownActions botCount := by
  refine ⟨by simp [teardownActions], ?_, by simp [teardownActions],
    by simp [teardownActions]⟩
  simp [teardownActions]

end ChunkGen

namespace BotSpawner

/-- Embeds `BotEvent` from `flex-mc/src/infra/bot_spawner.rs`. -/
inductive BotEvent where
  | spawnEv
  | disconnect (reason : String)
  | chunk (x z : Int)
deriving DecidableEq, Repr

/-- Outcome of the pre-login scan of one attempt's stdout. -/
inductive LoginOutcome where
  | loggedIn (rest : List BotEvent)
  | disconnected
  | ended
deriving DecidableEq, Repr

/-- Embeds the pre-login loop of `spawn_bot` (bot_spawner.rs lines 119–140):
events are read until `Spawn` (login succeeds, remaining events are handed to
the detached reader) or `Disconnect` (the attempt is over); `Chunk` events
are sent to the attempt's freshly created channel; end of stream leaves the
loop with neither flag set. Returns the chunk events sent so far and the
outcome. -/
def loginScan : List BotEvent → List (Int × Int) × LoginOutcome
  | [] => ([], LoginOutcome.ended)
  | BotEvent.spawnEv :: rest => ([], LoginOutcome.loggedIn rest)
  | BotEvent.disconnect _ :: _ => ([], LoginOutcome.disconnected)
  | BotEvent.chunk x z :: rest =>
    let (cs, o) := loginScan rest
    ((x, z) :: cs, o)

/-- Embeds the post-login reader thread (bot_spawner.rs lines 160–180):
`Chunk` events are forwarded, `Disconnect` stops the reader, `Spawn` is
ignored. -/
def postLoginChunks : List BotEvent → List (Int × Int)
  | [] => []
  | BotEvent.chunk x z :: rest => (x, z) :: postLoginChunks rest
  | BotEvent.disconnect _ :: _ => []
  | BotEvent.spawnEv :: rest => postLoginChunks rest

/-- Result of `spawn_bot`: on success, the number of subprocess attempts
launched and the full contents of the channel whose receiver is returned to
the caller; on failure, the attempt count reported in the
`failed to log in after {} attempts` error. -/
inductive SpawnResult where
  | ok (attempts : Nat) (channel : List (Int × Int))
  | loginFailed (attempts : Nat)
deriving DecidableEq, Repr

/-- Embeds the retry loop of `spawn_bot` (bot_spawner.rs lines 76–154).
`streams` gives the parsed stdout of the subprocess launched on each attempt
(attempt numbering starts at 0). `attemptIdx` is the source's `retry_count`;
`remaining` is `max_retries - retry_count`, the structurally decreasing
fuel. Each attempt creates a FRESH channel (line 98), so chunk events of
earlier attempts are not part of the returned channel; on success the channel
holds the pre-login chunks of the successful attempt followed by what the
detached reader forwards. -/
def spawnBotLoop (streams : Nat → List BotEvent) :
    Nat → Nat → SpawnResult
  | attemptIdx, remaining =>
    match loginScan (streams attemptIdx) with
    | (pre, LoginOutcome.loggedIn rest) =>
      SpawnResult.ok (attemptIdx + 1) (pre ++ postLoginChunks rest)
    | (_, LoginOutcome.disconnected) =>
      match remaining with
      | 0 => SpawnResult.loginFailed (attemptIdx + 1)
      | r + 1 => spawnBotLoop streams (attemptIdx + 1) r
    | (_, LoginOutcome.ended) => SpawnResult.loginFailed (attemptIdx + 1)

/-- Embeds `AzaleaBotSpawner::spawn_bot` as a function of the configured
`max_retries` and the per-attempt event streams. -/
def spawn_bot (max_retries : Nat) (streams : Nat → List BotEvent) :
    SpawnResult :=
  spawnBotLoop streams 0 max_retries

/-- Embeds the default `max_retries` from `AzaleaBotSpawner::new`. -/
def default_max_retries : Nat := 3

/-- Embeds the default `retry_delay` (`Duration::from_secs(5)`) in seconds. -/
def default_retry_delay_secs : Nat := 5

/-- When every attempt from index `i` through `i + r` scans to `disconnected`,
the retry loop exhausts its fuel and fails after `i + r + 1` attempts. -/
theorem spawnBotLoop_all_disconnect (streams : Nat → List BotEvent) :
    ∀ (r i : Nat),
      (∀ k, i ≤ k → k ≤ i + r →
        (loginScan (streams k)).2 = LoginOutcome.disconnected) →
      spawnBotLoop streams i r = SpawnResult.loginFailed (i + r + 1)
  | 0, i, h => by
    have hi := h i (le_refl i) (by omega)
    rcases hsc : loginScan (streams i) with ⟨pre, outc⟩
    rw [hsc] at hi
    simp only at hi
    subst hi
    simp [spawnBotLoop, hsc]
  | r + 1, i, h => by
    have hi := h i (le_refl i) (by omega)
    rcases hsc : loginScan (streams i) with ⟨pre, outc⟩
    rw [hsc] at hi
    simp only at hi
    subst hi
    have ih := spawnBotLoop_all_disconnect streams r (i + 1)
      (fun k hk1 hk2 => h k (by omega) (by omega))
    simp only [spawnBotLoop, hsc, ih]
    congr 1
    omega

/-- When the attempts before index `k` scan to `disconnected` and attempt `k`
logs in, the retry loop succeeds on attempt `k` and the returned channel
holds exactly that attempt's pre-login chunks followed by the detached
reader's forwards. -/
theorem spawnBotLoop_first_success (streams : Nat → List BotEvent) :
    ∀ (k r i : Nat) (pre : List (Int × Int)) (rest : List BotEvent),
      k ≤ r →
      (∀ j, j < k →
        (loginScan (streams (i + j))).2 = LoginOutcome.disconnected) →
      loginScan (streams (i + k)) = (pre, LoginOutcome.loggedIn rest) →
      spawnBotLoop streams i r =
        SpawnResult.ok (i + k + 1) (pre ++ postLoginChunks rest)
  | 0, r, i, pre, rest, hk, hprev, hsucc => by
    rw [Nat.add_zero] at hsucc
    cases r with
    | zero => simp [spawnBotLoop, hsucc]
    | succ r2 => simp [spawnBotLoop, hsucc]
  | k + 1, r, i, pre, rest, hk, hprev, hsucc => by
    have h0 := hprev 0 (by omega)
    rw [Nat.add_zero] at h0
    rcases hsc : loginScan (streams i) with ⟨pre0, outc⟩
    rw [hsc] at h0
    simp only at h0
    subst h0
    match r, hk with
    | r' + 1, hk =>
      have hprev2 : ∀ j, j < k →
          (loginScan (streams (i + 1 + j))).2 = LoginOutcome.disconnected := by
        intro j hj
        have := hprev (j + 1) (by omega)
        have he : i + (j + 1) = i + 1 + j := by omega
        rw [he] at this
        exact this
      have hsucc2 : loginScan (streams (i + 1 + k)) =
          (pre, LoginOutcome.loggedIn rest) := by
        have he : i + (k + 1) = i + 1 + k := by omega
        rw [he] at hsucc
        exact hsucc
      have ih := spawnBotLoop_first_success streams k r' (i + 1) pre rest
        (by omega) hprev2 hsucc2
      simp only [spawnBotLoop, hsc, ih]
      congr 1
      omega

/-- Claim C7 (amended): the default retry policy is `max_retries = 3` with a
5-second delay, i.e. up to 4 subprocess attempts in total (1 initial + 3
retries); and for any configured retry count `r`, when `r + 1` disconnects
precede any spawn, `spawn_bot` fails reporting `attempts = r + 1`. -/
theorem spawn_bot_retry_spec :
    default_max_retries = 3 ∧ default_retry_delay_secs = 5 ∧
    ∀ (r : Nat) (streams : Nat → List BotEvent),
      (∀ k, k ≤ r →
        (loginScan (streams k)).2 = LoginOutcome.disconnected) →
      spawn_bot r streams = SpawnResult.loginFailed (r + 1) := by
  refine ⟨rfl, rfl, ?_⟩
  intro r streams h
  have := spawnBotLoop_all_disconnect streams r 0
    (fun k hk1 hk2 => h k (by omega))
  rw [Nat.zero_add] at this
  exact this

/-- Claim C7 (witness): with one retry configured, two straight disconnects
fail the login reporting two attempts. -/
theorem spawn_bot_retry_spec_witness :
    spawn_bot 1 (fun _ => [BotEvent.disconnect "kicked"]) =
      SpawnResult.loginFailed 2 :=
  spawn_bot_retry_spec.2.2 1 (fun _ => [BotEvent.disconnect "kicked"])
    (fun _ _ => rfl)

/-- Claim C7 (counterexample): with the default configuration, a bot that
always disconnects causes FOUR subprocess attempts (`loginFailed 4`), not the
claimed maximum of 3 attempts in total. -/
theorem default_retries_four_attempts :
    spawn_bot default_max_retries (fun _ => [BotEvent.disconnect "kicked"]) =
      SpawnResult.loginFailed 4 ∧ ¬ (4 ≤ 3) :=
  ⟨rfl, by decide⟩

/-- Claim C9 (amended): the channel returned by `spawn_bot` holds exactly the
pre-Spawn chunk events of the attempt that succeeds, followed by the chunks
the detached reader forwards; chunk events of earlier attempts that ended in
`Disconnect` are discarded, because each attempt creates a fresh channel. -/
theorem spawn_bot_success_channel (r k : Nat)
    (streams : Nat → List BotEvent) (pre : List (Int × Int))
    (rest : List BotEvent) (hk : k ≤ r)
    (hprev : ∀ j, j < k →
      (loginScan (streams j)).2 = LoginOutcome.disconnected)
    (hsucc : loginScan (streams k) = (pre, LoginOutcome.loggedIn rest)) :
    spawn_bot r streams = SpawnResult.ok (k + 1) (pre ++ postLoginChunks rest)
    := by
  have := spawnBotLoop_first_success streams k r 0 pre rest hk
    (fun j hj => by rw [Nat.zero_add]; exact hprev j hj)
    (by rw [Nat.zero_add]; exact hsucc)
  rw [Nat.zero_add] at this
  exact this

/-- Claim C9 (witness): a first attempt that sends chunk (3,4) before Spawn
and (5,6) after it yields a channel holding both, in order. -/
theorem spawn_bot_success_channel_witness :
    spawn_bot 3 (fun _ => [BotEvent.chunk 3 4, BotEvent.spawnEv,
      BotEvent.chunk 5 6]) = SpawnResult.ok 1 [(3, 4), (5, 6)] :=
  spawn_bot_success_channel 3 0
    (fun _ => [BotEvent.chunk 3 4, BotEvent.spawnEv, BotEvent.chunk 5 6])
    [(3, 4)] [BotEvent.chunk 5 6] (Nat.zero_le 3)
    (fun j hj => absurd hj (Nat.not_lt_zero j)) rfl

/-- Event streams where the first attempt sends a chunk and then disconnects,
and every retry logs in immediately. -/
def retryStreams : Nat → List BotEvent
  | 0 => [BotEvent.chunk 1 2, BotEvent.disconnect "kicked"]
  | _ + 1 => [BotEvent.spawnEv]

/-- Claim C9 (counterexample): chunk (1,2) arrives before Spawn on the first
attempt, which then disconnects; after the retry succeeds, the channel
returned to the caller is EMPTY — the pre-login chunk of the retried attempt
was sent to a channel that was dropped, contradicting the claim. -/
theorem prelogin_chunks_dropped_on_retry :
    spawn_bot default_max_retries retryStreams = SpawnResult.ok 2 [] ∧
    ((1 : Int), (2 : Int)) ∉ ([] : List (Int × Int)) :=
  ⟨rfl, by simp⟩

end BotSpawner
